import Mathlib

/-!
Verification development for the grant-assessment retrieval pipeline
(`grant_rag.py`): document chunking, ingestion into a per-project vector
index, the query/response caches, the ask pipeline, and the assessment
workflows (eligibility, recommendation, multi-project chat, comparative
analysis).  Python functions are shallowly embedded as pure Lean
functions; the external services (embedding + similarity search, the
language model) are oracles supplied as explicit arguments whose
`Except.error` case models a raised exception caught by the code.
-/

namespace GrantRag

/-! ## Python string primitives used by the source -/

/-- Whitespace characters stripped by Python's `str.strip()` (ASCII set). -/
def py_is_space (c : Char) : Bool :=
  c = ' ' || c = '\t' || c = '\n' || c = '\r' || c = '\x0b' || c = '\x0c'

/-- Python `str.strip()` on a character list. -/
def py_strip_chars (s : List Char) : List Char :=
  ((s.dropWhile py_is_space).reverse.dropWhile py_is_space).reverse

/-- Python `str.strip()`. -/
def py_strip (s : String) : String :=
  ⟨py_strip_chars s.data⟩

/-- Python slice `s[i : i + len]` (character based). -/
def py_slice (s : String) (i len : Nat) : String :=
  ⟨(s.data.drop i).take len⟩

/-- Python `range(0, stop, step)` for a positive step. -/
def py_range (stop step : Nat) : List Nat :=
  (List.range ((stop + step - 1) / step)).map (· * step)

/-- Split a character list at every occurrence of a separator character;
the backbone of Python `str.split(sep)` for a one-character separator. -/
def split_char (c : Char) : List Char → List (List Char)
  | [] => [[]]
  | x :: xs =>
    match split_char c xs with
    | [] => [[]]
    | h :: t => if x = c then [] :: h :: t else (x :: h) :: t

/-- Python `s.split(sep)` for a one-character separator string. -/
def py_split (s : String) (c : Char) : List String :=
  (split_char c s.data).map String.mk

/-- Python `s.startswith(pre)`. -/
def py_startswith (s pre : String) : Bool :=
  pre.data.isPrefixOf s.data

/-- Fueled worker for Python `str.replace`: scan left to right, replacing
each non-overlapping occurrence of the (non-empty) pattern.  The fuel
only makes the recursion structural; `s.length` is always sufficient. -/
def replace_core (pat sub : List Char) : Nat → List Char → List Char
  | _, [] => []
  | 0, l => l
  | fuel + 1, x :: xs =>
    if pat ≠ [] ∧ pat.isPrefixOf (x :: xs) then
      sub ++ replace_core pat sub fuel ((x :: xs).drop pat.length)
    else x :: replace_core pat sub fuel xs

/-- Python `s.replace(pat, sub)` (all occurrences, left to right). -/
def py_replace (s pat sub : String) : String :=
  ⟨replace_core pat.data sub.data s.data.length s.data⟩

/-- Python `str.lower()` (ASCII range, which is all the source tests). -/
def py_lower (s : String) : String :=
  ⟨s.data.map Char.toLower⟩

/-- Fueled decimal-digit builder (the fuel argument only makes the
recursion structural; it is always sufficient when called with `n + 1`). -/
def natDigitsCore : Nat → Nat → List Char
  | 0, _ => []
  | fuel + 1, n =>
    if n < 10 then [Char.ofNat (48 + n)]
    else natDigitsCore fuel (n / 10) ++ [Char.ofNat (48 + n % 10)]

/-- Decimal digits of a natural number, least significant last; models the
digits of Python's `str(i)` / an f-string interpolation of an integer. -/
def natDigits (n : Nat) : List Char :=
  natDigitsCore (n + 1) n

/-- Python `str(n)` for a natural number. -/
def natToString (n : Nat) : String :=
  ⟨natDigits n⟩

/-! ## sanitize_name (grant_rag.py lines 40-67) -/

/-- Characters matched by the regex class `[a-zA-Z0-9]`. -/
def is_ascii_alnum (c : Char) : Bool :=
  ('a' ≤ c && c ≤ 'z') || ('A' ≤ c && c ≤ 'Z') || ('0' ≤ c && c ≤ '9')

/-- Collapse every run of consecutive underscores to a single underscore,
modelling `re.sub(r'_+', '_', s)`. -/
def collapse_underscores : List Char → List Char
  | [] => []
  | [c] => [c]
  | c1 :: c2 :: rest =>
    if c1 = '_' && c2 = '_' then collapse_underscores (c2 :: rest)
    else c1 :: collapse_underscores (c2 :: rest)

/-- `sanitize_name`: sanitize a name into a ChromaDB collection name
(replace invalid characters with underscores, collapse underscore runs,
strip non-alphanumeric edges, pad short names with "_collection",
truncate to 63 characters). -/
def sanitize_name (name : String) : String :=
  let s1 := name.data.map (fun c => if is_ascii_alnum c || c = '-' then c else '_')
  let s2 := collapse_underscores s1
  let s3 := s2.dropWhile (fun c => !is_ascii_alnum c)
  let s4 := (s3.reverse.dropWhile (fun c => !is_ascii_alnum c)).reverse
  let s5 := if s4.length < 3 then s4 ++ "_collection".data else s4
  let s6 :=
    if s5.length > 63 then ((s5.take 63).reverse.dropWhile (fun c => !is_ascii_alnum c)).reverse
    else s5
  ⟨s6⟩

/-! ## Text chunker: ProjectRAG.preprocess_text (lines 129-140) -/

/-- Module constant `CHUNK_SIZE`. -/
def CHUNK_SIZE : Nat := 1000

/-- Module constant `CHUNK_OVERLAP`. -/
def CHUNK_OVERLAP : Nat := 200

/-- `ProjectRAG.preprocess_text`: split text into character windows of
size `CHUNK_SIZE` advancing by `CHUNK_SIZE - CHUNK_OVERLAP`, dropping any
window whose stripped content is empty. -/
def preprocess_text (text : String) : List String :=
  if py_strip text = "" then []
  else
    (py_range text.length (CHUNK_SIZE - CHUNK_OVERLAP)).filterMap (fun i =>
      let chunk := py_slice text i CHUNK_SIZE
      if py_strip chunk ≠ "" then some chunk else none)

/-- Key-value lookup in a persisted dict (ingestion metadata, caches,
and the id-keyed collection). -/
def dict_get {α : Type} (d : List (String × α)) (k : String) : Option α :=
  (d.find? (fun p => p.1 == k)).map (·.2)

/-- Key-value assignment in a persisted dict: replace any prior binding. -/
def dict_set {α : Type} (d : List (String × α)) (k : String) (v : α) : List (String × α) :=
  (d.filter (fun p => p.1 != k)) ++ [(k, v)]

/-! ## Vector index (the per-project ChromaDB collection, §4.4)

The collection is modelled as an association list from chunk id to the
stored entry; `collection.add` appends and `collection.delete` filters,
and retrieval of a stored entry is first-match lookup. -/

/-- A chunk entry stored in the collection: the document text plus the
metadata fields written by `ingest_document` that the claims inspect
(`chunk_index`, `total_chunks`, `file_name`, `source`; the wall-clock
timestamp string is elided). -/
structure ChunkEntry where
  document : String
  chunk_index : Nat
  total_chunks : Nat
  file_name : String
  source : String
deriving DecidableEq, Repr

/-- The vector index: chunk id to stored entry, insertion ordered. -/
abbrev VIndex := List (String × ChunkEntry)

/-- `collection.delete(ids=[cid])`: remove every entry with that id
(deleting a nonexistent id is not an error). -/
def collection_delete (idx : VIndex) (cid : String) : VIndex :=
  idx.filter (fun p => p.1 != cid)

/-- `collection.add(ids=[cid], ...)`: append the new entry. -/
def collection_add (idx : VIndex) (cid : String) (e : ChunkEntry) : VIndex :=
  idx ++ [(cid, e)]

/-- Look up the entry stored under a chunk id. -/
def vlookup (idx : VIndex) (cid : String) : Option ChunkEntry :=
  dict_get idx cid

/-- Chunk id derived in `ingest_document`:
`f"{sanitize_name(file_name)}_{i}"`. -/
def chunk_id (file_name : String) (i : Nat) : String :=
  sanitize_name file_name ++ "_" ++ natToString i

/-! ## Ingestion (ProjectRAG.ingest_document, lines 222-310) -/

/-- Outcome of one extractor invocation, supplied as an oracle: `ok t` is
the text the extractor returned, `raises` means the underlying parser (or
the `open`/`read` for a text file) threw. -/
inductive Extraction where
  | ok (text : String)
  | raises
deriving DecidableEq, Repr

/-- One file presented to ingestion.  `file_name` and `parent_folder`
stand for `os.path.basename(file_path)` / `os.path.basename(os.path.dirname(file_path))`;
`add_raises = some j` means `collection.add` throws on chunk index `j`. -/
structure FileSpec where
  path : String
  file_name : String
  parent_folder : String
  ext : String
  mod_time : Nat
  extraction : Extraction
  add_raises : Option Nat
deriving DecidableEq, Repr

/-- Per-project ingestion state: the persisted ingestion-metadata dict
(file path to last-seen modification time), the vector index, and the
running statistics. -/
structure IngestState where
  ingestion_metadata : List (String × Nat)
  index : VIndex
  documents_processed : Nat
  chunks_stored : Nat
deriving DecidableEq, Repr

/-- The two-line provenance header `f"File: {file_name}\nLocation: {parent_folder}\n\n"`. -/
def file_header (f : FileSpec) : String :=
  "File: " ++ f.file_name ++ "\nLocation: " ++ f.parent_folder ++ "\n\n"

/-- Text returned by the extractor; the pdf/docx/xlsx extractors catch
their own exceptions and return the empty string. -/
def extracted_text (f : FileSpec) : String :=
  match f.extraction with
  | .ok t => t
  | .raises => ""

/-- The `document_text` assembled by `ingest_document`'s extension
dispatch; `none` when the extension is unsupported or when reading a
`.txt` file raised (that exception reaches the outer handler). -/
def document_text (f : FileSpec) : Option String :=
  if f.ext = ".pdf" || f.ext = ".docx" || f.ext = ".doc" then
    some (file_header f ++ extracted_text f)
  else if f.ext = ".xlsx" || f.ext = ".xls" then
    some (extracted_text f)
  else if f.ext = ".txt" then
    match f.extraction with
    | .raises => none
    | .ok t => some (file_header f ++ t)
  else none

/-- The chunks `ingest_document` derives from a file (empty when the file
yields no document text). -/
def file_chunks (f : FileSpec) : List String :=
  match document_text f with
  | none => []
  | some t => preprocess_text t

/-- The chunk-write loop of `ingest_document` (lines 279-296): for each
chunk, delete any existing entry under its id, then add the new entry
with its metadata.  Returns `false` with the partially updated index when
`collection.add` raises (the exception is caught by the outer handler). -/
def add_chunk_loop (f : FileSpec) (total : Nat) :
    VIndex → List String → Nat → Bool × VIndex
  | idx, [], _ => (true, idx)
  | idx, chunk :: rest, i =>
    let cid := chunk_id f.file_name i
    let idx1 := collection_delete idx cid
    if f.add_raises = some i then (false, idx1)
    else add_chunk_loop f total (collection_add idx1 cid ⟨chunk, i, total, f.file_name, f.path⟩) rest (i + 1)

/-- Steps 2-5 of `ingest_document` once the document text is assembled:
fail on empty text, fail on an empty chunk set, write all chunks, then
commit metadata and statistics. -/
def ingest_text (st : IngestState) (f : FileSpec) (text : String) : Bool × IngestState :=
  if py_strip text = "" then (false, st)
  else
    let chunks := preprocess_text text
    if chunks = [] then (false, st)
    else
      match add_chunk_loop f chunks.length st.index chunks 0 with
      | (false, idx1) => (false, { st with index := idx1 })
      | (true, idx1) =>
        (true,
          { st with
            index := idx1
            ingestion_metadata := dict_set st.ingestion_metadata f.path f.mod_time
            documents_processed := st.documents_processed + 1
            chunks_stored := st.chunks_stored + chunks.length })

/-- Skip check of `ingest_document`: the file is unchanged when the
ingestion metadata holds a modification time at least the file's current
one. -/
def should_skip (st : IngestState) (f : FileSpec) : Bool :=
  match dict_get st.ingestion_metadata f.path with
  | some t => decide (f.mod_time ≤ t)
  | none => false

/-- `ProjectRAG.ingest_document`: skip an unchanged file, dispatch on the
extension, chunk, write to the collection and commit.  Every exception
raised inside the body is caught and reported as `false`. -/
def ingest_document (st : IngestState) (f : FileSpec) : Bool × IngestState :=
  if should_skip st f then (false, st)
  else
    match document_text f with
    | none => (false, st)
    | some text => ingest_text st f text

/-! ## ProjectRAG.ingest_directory (lines 312-377) -/

/-- The run-level accounting returned by `ingest_directory` (each file
entry is represented by its full path; start/end timestamps and elapsed
wall-clock time are elided). -/
structure IngestionResults where
  processed_files : List String
  skipped_files : List String
  error_files : List String
  total_processed : Nat
  total_skipped : Nat
  total_errors : Nat
deriving DecidableEq, Repr

/-- Supported extensions checked by `ingest_directory`. -/
def supported_extensions : List String :=
  [".pdf", ".docx", ".doc", ".xlsx", ".xls", ".txt"]

/-- The per-file loop of `ingest_directory`: files with unsupported
extensions are passed over without any accounting; otherwise the file is
ingested and recorded as processed or skipped by the returned flag.
`ingest_document` catches every exception of its own body, so the
`except` branch that would append to `error_files` is unreachable and the
loop produces no error entries. -/
def ingest_directory_loop (st : IngestState) :
    List FileSpec → List String × List String × IngestState
  | [] => ([], [], st)
  | f :: rest =>
    if supported_extensions.contains f.ext then
      let r := ingest_document st f
      let rec_rest := ingest_directory_loop r.2 rest
      if r.1 then (f.path :: rec_rest.1, rec_rest.2.1, rec_rest.2.2)
      else (rec_rest.1, f.path :: rec_rest.2.1, rec_rest.2.2)
    else ingest_directory_loop st rest

/-- `ProjectRAG.ingest_directory`: walk the files, aggregate
processed/skipped/error lists and their counters. -/
def ingest_directory (st : IngestState) (files : List FileSpec) :
    IngestionResults × IngestState :=
  let r := ingest_directory_loop st files
  (⟨r.1, r.2.1, [], r.1.length, r.2.1.length, 0⟩, r.2.2)

/-! ## Query & response pipeline (lines 380-514)

The embedding service + similarity search (`collection.query`, which
embeds the query text internally) and the language model
(`chat.completions.create`) are oracles carried in an environment; an
`Except.error` result models a raised exception.  The state carries the
two persistent caches plus instrumentation counters: `search_calls`
counts issued similarity searches (each of which embeds the query),
`llm_calls` counts issued language-model calls, and `clock` is an
abstract timestamp advanced at each `datetime.now()` the pipeline
records. -/

/-- One retrieved chunk as formatted by `query_collection`: content plus
the metadata fields `generate_response` reads (`source`, `chunk_index`)
and the relevance score (an abstract numeric, never inspected). -/
structure RetrievedChunk where
  content : String
  source : String
  chunk_index : Nat
  relevance_score : Nat
deriving DecidableEq, Repr

/-- The result dict produced by `generate_response`/`ask`.  The success
dict has `context_used` and `chunks` and no `error` field; the failure
dict has `error` and lacks the other two (modelled with `Option`). -/
structure AskResult where
  answer : String
  sources : List String
  timestamp : Nat
  context_used : Option Nat
  chunks : Option String
  error : Option String
deriving DecidableEq, Repr

/-- The external services: `search q k` is `collection.query` (embed the
query, return up to k nearest chunks; the empty list models "no
documents"), `llm sys user` is one chat completion. -/
structure Env where
  search : String → Nat → Except String (List RetrievedChunk)
  llm : String → String → Except String String

/-- Mutable per-project state of the query pipeline: the query cache
(`self.cache`), the response cache (`self.response_cache`), and the
instrumentation counters. -/
structure RAGState where
  cache : List (String × List RetrievedChunk)
  response_cache : List (String × AskResult)
  clock : Nat
  search_calls : Nat
  llm_calls : Nat
deriving DecidableEq, Repr

/-- The fresh state of a newly constructed ProjectRAG. -/
def rag_st0 : RAGState := ⟨[], [], 0, 0, 0⟩

/-- `hashlib.md5(query.encode()).hexdigest()`: the cache key of a query.
Its only role in the source is content-addressing, so it is modelled as
an injective key function. -/
def md5_hex (query : String) : String := query

/-- The search-and-cache arm of `query_collection`, reached on a cache
miss: issue the similarity search (catching any exception as an empty
result), return an empty list without caching when no documents come
back, and cache a non-empty result. -/
def query_collection_search (env : Env) (st : RAGState) (query : String) (n_results : Nat) :
    List RetrievedChunk × RAGState :=
  let st1 := { st with search_calls := st.search_calls + 1 }
  match env.search query n_results with
  | .error _ => ([], st1)
  | .ok docs =>
    if docs = [] then ([], st1)
    else (docs, { st1 with cache := dict_set st1.cache (md5_hex query) docs })

/-- `ProjectRAG.query_collection`: serve the chunk list from the query
cache when a (truthy, hence non-empty) entry is present, otherwise search
and cache. -/
def query_collection (env : Env) (st : RAGState) (query : String) (n_results : Nat := 5) :
    List RetrievedChunk × RAGState :=
  let query_hash := md5_hex query
  match dict_get st.cache query_hash with
  | some cached =>
    if cached ≠ [] then (cached, st)
    else query_collection_search env st query n_results
  | none => query_collection_search env st query n_results

/-- `os.path.basename`: the component after the last slash. -/
def os_path_basename (p : String) : String :=
  (py_split p '/').getLastD ""

/-- The accumulator loop of `generate_response`'s context-formatting
pass, carrying the context block, the deduplicated first-seen source
list, and the chunk-index string. -/
def format_context_loop :
    List RetrievedChunk → Nat → String → List String → String → String × List String × String
  | [], _, formatted, sources, chunks_str => (formatted, sources, chunks_str)
  | chunk :: rest, i, formatted, sources, chunks_str =>
    let chunks_str1 := chunks_str ++ natToString chunk.chunk_index ++ ", "
    let formatted1 := formatted ++ "[CHUNK " ++ natToString (i + 1) ++ "] " ++ chunk.content ++ "\n\n"
    let source_file := os_path_basename chunk.source
    let sources1 := if source_file ∈ sources then sources else sources ++ [source_file]
    format_context_loop rest (i + 1) formatted1 sources1 chunks_str1

/-- The numbered context block, source list and chunk-index string built
by `generate_response` for a retrieved chunk list. -/
def format_context (chunks : List RetrievedChunk) : String × List String × String :=
  format_context_loop chunks 0 "" [] ""

/-- The fixed system instruction of `generate_response`. -/
def rag_system_prompt : String :=
  "You are an AI assistant specialized in analyzing grant applications and project documents. You will be provided with context chunks from a project's documents. Use this information to answer the query accurately and concisely. If the information is not in the context, state that clearly. Include specific facts, figures, and quotes from the documents when relevant. Always cite your sources when quoting from specific documents."

/-- The user prompt of `generate_response`. -/
def rag_user_prompt (query formatted_context : String) : String :=
  "Query: " ++ query ++ "\n\nContext from project documents:\n" ++ formatted_context

/-- `ProjectRAG.generate_response`: serve the answer from the response
cache when present; otherwise format the context, call the language
model, cache and return the success dict, or convert a raised exception
into an error dict without caching it. -/
def generate_response (env : Env) (st : RAGState) (query : String)
    (context_chunks : List RetrievedChunk) : AskResult × RAGState :=
  let query_hash := md5_hex query
  match dict_get st.response_cache query_hash with
  | some cached_response => (cached_response, st)
  | none =>
    let fc := format_context context_chunks
    let formatted_context :=
      if fc.1 = "" then "No relevant information found in the project documents." else fc.1
    let st1 := { st with llm_calls := st.llm_calls + 1, clock := st.clock + 1 }
    match env.llm rag_system_prompt (rag_user_prompt query formatted_context) with
    | .ok answer =>
      let result : AskResult :=
        ⟨answer, fc.2.1, st.clock, some context_chunks.length, some fc.2.2, none⟩
      (result, { st1 with response_cache := dict_set st1.response_cache query_hash result })
    | .error e =>
      (⟨"Error generating response: " ++ e, [], st.clock, none, none, some e⟩, st1)

/-- `ProjectRAG.ask`: retrieve (top-5) then generate. -/
def ask (env : Env) (st : RAGState) (query : String) : AskResult × RAGState :=
  let retrieved := query_collection env st query 5
  generate_response env retrieved.2 query retrieved.1

/-! ## Eligibility check (ProjectRAG.check_eligibility, lines 517-574) -/

/-- One criterion evaluation recorded by `check_eligibility`. -/
structure CriterionResult where
  name : String
  question : String
  answer : String
  meets_criterion : Bool
  sources : List String
deriving DecidableEq, Repr

/-- The result dict of `check_eligibility`. -/
structure EligibilityResult where
  project_name : String
  criteria : List CriterionResult
  eligible : Bool
  summary : String
deriving DecidableEq, Repr

/-- The yes/no-forcing rewrite applied to each criterion question. -/
def eligibility_question (question : String) : String :=
  "Based on the project documents, " ++ question ++
    " Answer with 'Yes' or 'No' first, then provide supporting evidence."

/-- The classification in `check_eligibility`:
`answer.lower().startswith("yes")`. -/
def starts_with_yes (answer : String) : Bool :=
  py_startswith (py_lower answer) "yes"

/-- The criterion loop of `check_eligibility`: ask every criterion's
rewritten question in mapping order (threading the cache state through
the asks), record each evaluation, and conjoin the per-criterion flags
(the source clears an initially-true flag on each failure, which is the
same conjunction). -/
def check_eligibility_loop (env : Env) :
    RAGState → List (String × String) → List CriterionResult × Bool × RAGState
  | st, [] => ([], true, st)
  | st, (criterion_name, question) :: rest =>
    let r := ask env st (eligibility_question question)
    let answer := py_strip r.1.answer
    let is_eligible := starts_with_yes answer
    let res := check_eligibility_loop env r.2 rest
    (⟨criterion_name, question, answer, is_eligible, r.1.sources⟩ :: res.1,
     is_eligible && res.2.1,
     res.2.2)

/-- `ProjectRAG.check_eligibility`: evaluate every criterion, AND the
outcomes, and produce the summary (naming the failing criteria, in
order, when not eligible).  Criteria are a list of (name, question)
pairs, the insertion order of the Python dict. -/
def check_eligibility (env : Env) (st : RAGState) (project_name : String)
    (criteria : List (String × String)) : EligibilityResult × RAGState :=
  let r := check_eligibility_loop env st criteria
  let summary :=
    if r.2.1 then "Project '" ++ project_name ++ "' meets all eligibility criteria."
    else
      "Project '" ++ project_name ++ "' does not meet the following criteria: " ++
        String.intercalate ", " ((r.1.filter (fun c => !c.meets_criterion)).map (·.name)) ++ "."
  (⟨project_name, r.1, r.2.1, summary⟩, r.2.2)

/-! ## Recommendation (ProjectRAG.generate_recommendation, lines 674-763)

The context/prompt assembly (lines 685-724) only feeds the language
model, which is an oracle here, so the model is parameterized directly on
the oracle's response; the claim concerns the parsing of that response
(lines 737-754). -/

/-- The result dict of `generate_recommendation`; the error dict carries
no `funding_decision` field (modelled as `none`). -/
structure Recommendation where
  project_name : String
  funding_decision : Option String
  recommendation : String
  error : Option String
deriving DecidableEq, Repr

/-- Decision parsing of `generate_recommendation`: take the stripped
first line; when it starts with "DECISION:" the decision is that line
with every "DECISION:" occurrence removed and stripped, and the decision
line is dropped from the rationale; otherwise the decision defaults to
"Pending" and the whole response is kept. -/
def parse_decision (recommendation_text : String) : String × String :=
  let lines := py_split recommendation_text '\n'
  let first_line := py_strip (lines.headD "")
  if py_startswith first_line "DECISION:" then
    (py_strip (py_replace first_line "DECISION:" ""),
     py_strip (String.intercalate "\n" (lines.drop 1)))
  else ("Pending", recommendation_text)

/-- `ProjectRAG.generate_recommendation`, as a function of the
language-model outcome: parse the decision on success, or return the
error dict when the call raised. -/
def generate_recommendation (project_name : String) (llm_response : Except String String) :
    Recommendation :=
  match llm_response with
  | .error e => ⟨project_name, none, "Error generating recommendation.", some e⟩
  | .ok text =>
    let p := parse_decision text
    ⟨project_name, some p.1, p.2, none⟩

/-! ## Multi-project chat (GrantAssessmentSystem.chat_with_projects, lines 932-994) -/

/-- A per-project answer as it appears in the `responses` dict (the
substitute written on an `ask_project` failure has this same shape). -/
structure ProjectAnswer where
  answer : String
  sources : List String
deriving DecidableEq, Repr

/-- The success dict of `chat_with_projects`. -/
structure MultiChatResult where
  responses : List (String × ProjectAnswer)
  comparison : String
deriving DecidableEq, Repr

/-- `GrantAssessmentSystem.chat_with_projects`: raise a `ValueError`
(modelled as `Except.error`) when fewer than two project names are
given; otherwise collect one answer per name (substituting an
error-answer placeholder when `ask_project` raises) and one synthesis
call (substituting an error string when the language model raises).
`ask_proj` is the `ask_project` oracle and `llm` the synthesis-call
oracle (its prompt is a fixed template around the collected answers, so
it is supplied with the outcome directly). -/
def chat_with_projects (ask_proj : String → Except String ProjectAnswer)
    (llm : Except String String) (query : String) (project_names : List String) :
    Except String MultiChatResult :=
  if project_names.isEmpty || project_names.length < 2 then
    Except.error "At least 2 projects are required for multi-project chat"
  else
    let responses := project_names.map (fun p =>
      (p, match ask_proj p with
          | .ok r => r
          | .error e => ⟨"Error getting response: " ++ e, []⟩))
    let comparison :=
      match llm with
      | .ok c => c
      | .error e => "Error generating comparative analysis: " ++ e
    Except.ok ⟨responses, comparison⟩

/-! ## Comparative analysis (GrantAssessmentSystem.generate_comparative_analysis, lines 1014-1094) -/

/-- The result dict of `generate_comparative_analysis`: either the error
shape (fewer than two projects, or a raised synthesis call) or the
success shape with per-project summaries, the synthesized comparison and
the compared-project list. -/
structure ComparativeAnalysis where
  responses : List (String × String)
  comparison : String
  projects_compared : List String
  error : Option String
deriving DecidableEq, Repr

/-- The fixed summarization question sent to every project. -/
def comparative_query : String :=
  "Summarize this project's key aspects including: 1. Main objectives and goals 2. Target beneficiaries 3. Implementation approach 4. Expected outcomes and impact 5. Budget and resource requirements"

/-- `GrantAssessmentSystem.generate_comparative_analysis`: `projects` is
`self.projects` in iteration order, `ask_proj p` the answer of
`self.projects[p].ask(comparative_query)`, and `llm` the synthesis call.
The `eligible_only` parameter is accepted - and never read - exactly as
in the source, which iterates over all of `self.projects` unfiltered. -/
def generate_comparative_analysis (projects : List String) (ask_proj : String → String)
    (llm : Except String String) (eligible_only : Bool) : ComparativeAnalysis :=
  if projects.length < 2 then
    ⟨[], "", [], some "At least two projects are required for comparative analysis"⟩
  else
    let responses := projects.map (fun p => (p, ask_proj p))
    match llm with
    | .error e => ⟨[], "", [], some e⟩
    | .ok comparison => ⟨responses, comparison, projects, none⟩

/-! ## Spec-side comparison definition -/

/-- Modelled from the spec for comparison with the source's
classification: the first whitespace-delimited token of the trimmed
answer. -/
def spec_first_token (answer : String) : String :=
  ⟨(py_strip answer).data.takeWhile (fun c => !py_is_space c)⟩

/-- Modelled from the spec for comparison with the source's
classification in claim C6: "the trimmed answer's first token
case-insensitively equals yes". -/
def spec_first_token_is_yes (answer : String) : Bool :=
  py_lower (spec_first_token answer) == "yes"

/-! ## Concrete fixtures used by counterexamples and witnesses -/

/-- Fresh ingestion state of a new project. -/
def ingest_st0 : IngestState := ⟨[], [], 0, 0⟩

/-- First revision of a text file: 1000 characters of content, which
chunk (together with the 29-character provenance header) into 2 windows. -/
def c1_f1 : FileSpec :=
  ⟨"p/notes.txt", "notes.txt", "p", ".txt", 1, .ok (String.mk (List.replicate 1000 'a')), none⟩

/-- Second revision of the same file: 10 characters of content, which
chunk into a single window. -/
def c1_f2 : FileSpec :=
  ⟨"p/notes.txt", "notes.txt", "p", ".txt", 2, .ok (String.mk (List.replicate 10 'b')), none⟩

/-- State after ingesting the first revision. -/
def c1_st1 : IngestState := (ingest_document ingest_st0 c1_f1).2

/-- State after re-ingesting the modified file. -/
def c1_st2 : IngestState := (ingest_document c1_st1 c1_f2).2

/-- A small readable text file for batch fixtures. -/
def mk_txt_file (p : String) (content : String) : FileSpec :=
  ⟨p, p, "proj", ".txt", 1, .ok content, none⟩

/-- A batch of five files whose third throws during extraction. -/
def c2_files : List FileSpec :=
  [mk_txt_file "p1.txt" "alpha one", mk_txt_file "p2.txt" "beta two",
   ⟨"p3.xlsx", "p3.xlsx", "proj", ".xlsx", 1, .raises, none⟩,
   mk_txt_file "p4.txt" "gamma four", mk_txt_file "p5.txt" "delta five"]

/-- A text of length 2500 with no whitespace. -/
def c4_text : String := String.mk (List.replicate 2500 'a')

/-- Three eligibility criteria for the witness scenario. -/
def c6_criteria : List (String × String) :=
  [("budget", "is the budget complete?"), ("rural", "does it serve rural areas?"),
   ("team", "is the team qualified?")]

/-- Environment whose retrieval is empty and whose language model answers
"No, ..." exactly for the rural-areas criterion and "Yes, ..." otherwise. -/
def c6_env : Env :=
  ⟨fun _ _ => Except.ok [],
   fun _ u => Except.ok
     (if u = rag_user_prompt (eligibility_question "does it serve rural areas?")
         "No relevant information found in the project documents."
      then "No, the documents do not mention rural areas."
      else "Yes, the documents support this.")⟩

/-- Environment whose language model opens its answer with a word that
merely starts with the letters "yes". -/
def c6_bad_env : Env :=
  ⟨fun _ _ => Except.ok [], fun _ _ => Except.ok "Yesterday the project launched."⟩

/-- Environment with one retrievable chunk and a language model that
always raises. -/
def c8_env : Env :=
  ⟨fun _ _ => Except.ok [⟨"some chunk", "proj/doc.txt", 0, 1⟩],
   fun _ _ => Except.error "boom"⟩

/-- Environment whose similarity search finds no documents and whose
language model succeeds. -/
def c9_empty_env : Env :=
  ⟨fun _ _ => Except.ok [], fun _ _ => Except.ok "an answer"⟩

/-- Environment with one retrievable chunk and a language model that
succeeds. -/
def c9_ok_env : Env :=
  ⟨fun _ _ => Except.ok [⟨"some chunk", "proj/doc.txt", 0, 1⟩],
   fun _ _ => Except.ok "an answer"⟩

/-- An ask-project oracle answering per project name. -/
def c5_ask_proj (p : String) : Except String ProjectAnswer :=
  Except.ok ⟨"answer from " ++ p, []⟩

/-- A per-project summary oracle for the comparative analysis. -/
def c3_ask_proj (p : String) : String := "summary of " ++ p

/-! ## Helper lemmas: decimal representation and chunk-id injectivity -/

theorem digit_char_inj :
    ∀ a, a < 10 → ∀ b, b < 10 → Char.ofNat (48 + a) = Char.ofNat (48 + b) → a = b := by
  decide

theorem natDigitsCore_fuel_irrel :
    ∀ (fuel1 : Nat), ∀ (fuel2 n : Nat), n < fuel1 → n < fuel2 →
      natDigitsCore fuel1 n = natDigitsCore fuel2 n := by
  intro fuel1
  induction fuel1 with
  | zero => omega
  | succ f ihf =>
    intro fuel2 n h1 h2
    cases fuel2 with
    | zero => omega
    | succ f2 =>
      by_cases hn : n < 10
      · simp only [natDigitsCore, if_pos hn]
      · simp only [natDigitsCore, if_neg hn]
        have hlt : n / 10 < n := Nat.div_lt_self (by omega) (by norm_num)
        rw [ihf f2 (n / 10) (by omega) (by omega)]

theorem natDigitsCore_succ (fuel n : Nat) :
    natDigitsCore (fuel + 1) n =
      if n < 10 then [Char.ofNat (48 + n)]
      else natDigitsCore fuel (n / 10) ++ [Char.ofNat (48 + n % 10)] := rfl

theorem natDigits_eq (n : Nat) :
    natDigits n =
      if n < 10 then [Char.ofNat (48 + n)]
      else natDigits (n / 10) ++ [Char.ofNat (48 + n % 10)] := by
  by_cases hn : n < 10
  · rw [natDigits, natDigitsCore_succ, if_pos hn, if_pos hn]
  · have hlt : n / 10 < n := Nat.div_lt_self (by omega) (by norm_num)
    rw [natDigits, natDigitsCore_succ, if_neg hn, if_neg hn, natDigits]
    rw [natDigitsCore_fuel_irrel n (n / 10 + 1) (n / 10) (by omega) (by omega)]

theorem natDigits_ne_nil (n : Nat) : natDigits n ≠ [] := by
  rw [natDigits_eq]
  split <;> simp

theorem natDigits_inj (m : Nat) : ∀ n, natDigits m = natDigits n → m = n := by
  induction m using Nat.strong_induction_on with
  | _ m ih =>
    intro n h
    rw [natDigits_eq m, natDigits_eq n] at h
    by_cases hm : m < 10 <;> by_cases hn : n < 10
    · rw [if_pos hm, if_pos hn] at h
      simp only [List.cons.injEq, and_true] at h
      exact digit_char_inj m hm n hn h
    · rw [if_pos hm, if_neg hn] at h
      have hlen := congrArg List.length h
      simp only [List.length_singleton, List.length_append, List.length_cons,
        List.length_nil] at hlen
      have hnil : natDigits (n / 10) = [] := List.length_eq_zero.mp (by omega)
      exact absurd hnil (natDigits_ne_nil _)
    · rw [if_neg hm, if_pos hn] at h
      have hlen := congrArg List.length h
      simp only [List.length_singleton, List.length_append, List.length_cons,
        List.length_nil] at hlen
      have hnil : natDigits (m / 10) = [] := List.length_eq_zero.mp (by omega)
      exact absurd hnil (natDigits_ne_nil _)
    · rw [if_neg hm, if_neg hn] at h
      obtain ⟨h1, h2⟩ := List.append_inj' h rfl
      simp only [List.cons.injEq, and_true] at h2
      have hmod : m % 10 = n % 10 :=
        digit_char_inj _ (Nat.mod_lt _ (by norm_num)) _ (Nat.mod_lt _ (by norm_num)) h2
      have hdiv : m / 10 = n / 10 :=
        ih (m / 10) (Nat.div_lt_self (by omega) (by norm_num)) _ h1
      omega

theorem natToString_inj {m n : Nat} (h : natToString m = natToString n) : m = n :=
  natDigits_inj m n (congrArg String.data h)

theorem chunk_id_inj (name : String) {i j : Nat} (h : chunk_id name i = chunk_id name j) :
    i = j := by
  unfold chunk_id at h
  have h2 := congrArg String.data h
  simp only [String.data_append, List.append_assoc] at h2
  have h3 := List.append_cancel_left (List.append_cancel_left h2)
  exact natToString_inj (show natToString i = natToString j from congrArg String.mk h3)

/-! ## Helper lemmas: dict lookup, assignment, deletion -/

theorem find?_key_filter_ne {α : Type} (d : List (String × α)) (k k' : String) (h : k' ≠ k) :
    (d.filter (fun p => p.1 != k)).find? (fun p => p.1 == k') = d.find? (fun p => p.1 == k') := by
  induction d with
  | nil => rfl
  | cons x xs ih =>
    by_cases hk : x.1 = k
    · have h1 : (x.1 != k) = false := by simp [hk]
      have h2 : (x.1 == k') = false := by
        simp only [beq_eq_false_iff_ne, ne_eq, hk]
        exact Ne.symm h
      simp [List.filter_cons, h1, List.find?_cons, h2, ih]
    · have h1 : (x.1 != k) = true := by simp [hk]
      by_cases hx : x.1 = k'
      · have h2 : (x.1 == k') = true := by simp [hx]
        simp [List.filter_cons, h1, List.find?_cons, h2]
      · have h2 : (x.1 == k') = false := by simp [hx]
        simp [List.filter_cons, h1, List.find?_cons, h2, ih]

theorem find?_key_filter_self {α : Type} (d : List (String × α)) (k : String) :
    (d.filter (fun p => p.1 != k)).find? (fun p => p.1 == k) = none := by
  rw [List.find?_eq_none]
  intro x hx
  have := (List.mem_filter.mp hx).2
  simpa using this

theorem dict_get_set_self {α : Type} (d : List (String × α)) (k : String) (v : α) :
    dict_get (dict_set d k v) k = some v := by
  unfold dict_get dict_set
  rw [List.find?_append, find?_key_filter_self]
  simp [List.find?_cons]

theorem dict_get_set_ne {α : Type} (d : List (String × α)) (k k' : String) (v : α)
    (h : k' ≠ k) : dict_get (dict_set d k v) k' = dict_get d k' := by
  unfold dict_get dict_set
  rw [List.find?_append, find?_key_filter_ne d k k' h]
  cases hf : d.find? (fun p => p.1 == k') with
  | some x => rfl
  | none =>
    have hk : ((k, v).1 == k') = false := by
      simp only [beq_eq_false_iff_ne, ne_eq]
      exact fun hx => h hx.symm
    simp [List.find?_cons, hk]

theorem mem_dict_set {α : Type} {d : List (String × α)} {k : String} {v : α} {p : String × α}
    (h : p ∈ dict_set d k v) : p ∈ d ∨ p = (k, v) := by
  unfold dict_set at h
  rcases List.mem_append.mp h with h1 | h1
  · exact Or.inl (List.mem_filter.mp h1).1
  · simp only [List.mem_singleton] at h1
    exact Or.inr h1

theorem vlookup_delete_self (idx : VIndex) (cid : String) :
    vlookup (collection_delete idx cid) cid = none := by
  unfold vlookup dict_get collection_delete
  rw [find?_key_filter_self]
  rfl

theorem vlookup_delete_ne (idx : VIndex) (cid c : String) (h : c ≠ cid) :
    vlookup (collection_delete idx cid) c = vlookup idx c := by
  unfold vlookup dict_get collection_delete
  rw [find?_key_filter_ne idx cid c h]

theorem vlookup_add_ne (idx : VIndex) (cid c : String) (e : ChunkEntry) (h : c ≠ cid) :
    vlookup (collection_add idx cid e) c = vlookup idx c := by
  unfold vlookup dict_get collection_add
  rw [List.find?_append]
  cases hf : idx.find? (fun p => p.1 == c) with
  | some x => rfl
  | none =>
    have hk : ((cid, e).1 == c) = false := by
      simp only [beq_eq_false_iff_ne, ne_eq]
      exact fun hx => h hx.symm
    simp [List.find?_cons, hk]

theorem vlookup_delete_add_self (idx : VIndex) (cid : String) (e : ChunkEntry) :
    vlookup (collection_add (collection_delete idx cid) cid e) cid = some e := by
  unfold vlookup dict_get collection_add collection_delete
  rw [List.find?_append, find?_key_filter_self]
  simp [List.find?_cons]

/-! ## Helper lemmas: the chunk-write loop and ingest_document -/

theorem add_chunk_loop_lookup (f : FileSpec) (total : Nat) :
    ∀ (chunks : List String) (idx res : VIndex) (i0 : Nat),
      add_chunk_loop f total idx chunks i0 = (true, res) →
      ∀ j, vlookup res (chunk_id f.file_name j) =
        if i0 ≤ j ∧ j < i0 + chunks.length
        then some ⟨chunks.getD (j - i0) "", j, total, f.file_name, f.path⟩
        else vlookup idx (chunk_id f.file_name j) := by
  intro chunks
  induction chunks with
  | nil =>
    intro idx res i0 hloop j
    simp only [add_chunk_loop, Prod.mk.injEq, true_and] at hloop
    rw [if_neg (by simp only [List.length_nil]; omega)]
    rw [hloop]
  | cons c rest ih =>
    intro idx res i0 hloop j
    rw [add_chunk_loop] at hloop
    by_cases hr : f.add_raises = some i0
    · rw [if_pos hr] at hloop
      exact absurd (congrArg Prod.fst hloop) (by simp)
    · rw [if_neg hr] at hloop
      have hrec := ih _ res (i0 + 1) hloop
      by_cases hj0 : j = i0
      · subst hj0
        have h1 := hrec j
        rw [if_neg (by omega)] at h1
        rw [h1, vlookup_delete_add_self]
        rw [if_pos (by simp only [List.length_cons]; omega)]
        simp
      · by_cases hj1 : i0 + 1 ≤ j ∧ j < i0 + 1 + rest.length
        · have h1 := hrec j
          rw [if_pos hj1] at h1
          rw [h1]
          rw [if_pos (by simp only [List.length_cons]; omega)]
          have hidx : j - i0 = (j - (i0 + 1)) + 1 := by omega
          rw [hidx, List.getD_cons_succ]
        · have h1 := hrec j
          rw [if_neg hj1] at h1
          rw [h1]
          have hne : chunk_id f.file_name j ≠ chunk_id f.file_name i0 :=
            fun hc => hj0 (chunk_id_inj f.file_name hc)
          rw [vlookup_add_ne _ _ _ _ hne, vlookup_delete_ne _ _ _ hne]
          rw [if_neg (by simp only [List.length_cons]; omega)]

theorem ingest_text_true_index (st : IngestState) (f : FileSpec) (text : String)
    (st' : IngestState) (h : ingest_text st f text = (true, st')) :
    ∀ j, vlookup st'.index (chunk_id f.file_name j) =
      if j < (preprocess_text text).length
      then some ⟨(preprocess_text text).getD j "", j, (preprocess_text text).length,
        f.file_name, f.path⟩
      else vlookup st.index (chunk_id f.file_name j) := by
  unfold ingest_text at h
  by_cases h1 : py_strip text = ""
  · rw [if_pos h1] at h
    exact absurd (congrArg Prod.fst h) (by simp)
  · rw [if_neg h1] at h
    by_cases h2 : preprocess_text text = []
    · rw [if_pos h2] at h
      exact absurd (congrArg Prod.fst h) (by simp)
    · rw [if_neg h2] at h
      rcases hloop : add_chunk_loop f (preprocess_text text).length st.index
          (preprocess_text text) 0 with ⟨b, idx1⟩
      rw [hloop] at h
      cases b
      · exact absurd (congrArg Prod.fst h) (by simp)
      · have hidx : st'.index = idx1 := (congrArg (fun p => p.2.index) h).symm
        intro j
        have hc := add_chunk_loop_lookup f (preprocess_text text).length
          (preprocess_text text) st.index idx1 0 hloop j
        simp only [Nat.zero_le, true_and, Nat.zero_add, Nat.sub_zero] at hc
        rw [hidx]
        exact hc

theorem ingest_document_true_index (st : IngestState) (f : FileSpec) (st' : IngestState)
    (h : ingest_document st f = (true, st')) :
    ∀ j, vlookup st'.index (chunk_id f.file_name j) =
      if j < (file_chunks f).length
      then some ⟨(file_chunks f).getD j "", j, (file_chunks f).length, f.file_name, f.path⟩
      else vlookup st.index (chunk_id f.file_name j) := by
  unfold ingest_document at h
  split at h
  · exact absurd (congrArg Prod.fst h) (by simp)
  · split at h
    · exact absurd (congrArg Prod.fst h) (by simp)
    · rename_i text htext
      have hfc : file_chunks f = preprocess_text text := by
        unfold file_chunks
        rw [htext]
      intro j
      rw [hfc]
      exact ingest_text_true_index st f text st' h j

theorem ingest_document_raises (st : IngestState) (f : FileSpec)
    (hx : f.extraction = Extraction.raises)
    (he : f.ext = ".xlsx" ∨ f.ext = ".xls" ∨ f.ext = ".txt") :
    ingest_document st f = (false, st) := by
  unfold ingest_document
  split
  · rfl
  · have hstrip : py_strip "" = "" := rfl
    rcases he with he | he | he <;>
      simp [document_text, he, extracted_text, hx, ingest_text, hstrip]

/-! ## Helper lemmas: ingest_directory accounting -/

theorem ingest_directory_loop_spec :
    ∀ (files : List FileSpec) (st : IngestState),
      ((ingest_directory_loop st files).1.length + (ingest_directory_loop st files).2.1.length
        = (files.filter (fun f => supported_extensions.contains f.ext)).length) ∧
      (∀ f ∈ files, supported_extensions.contains f.ext = true →
        f.path ∈ (ingest_directory_loop st files).1 ∨
          f.path ∈ (ingest_directory_loop st files).2.1) ∧
      (∀ f ∈ files, f.extraction = Extraction.raises →
        (f.ext = ".xlsx" ∨ f.ext = ".xls" ∨ f.ext = ".txt") →
        f.path ∈ (ingest_directory_loop st files).2.1) := by
  intro files
  induction files with
  | nil =>
    intro st
    refine ⟨rfl, ?_, ?_⟩ <;> intro f hf <;> simp at hf
  | cons g rest ih =>
    intro st
    by_cases hg : (supported_extensions.contains g.ext) = true
    · obtain ⟨ih1, ih2, ih3⟩ := ih (ingest_document st g).2
      by_cases hr : (ingest_document st g).1 = true
      · have hunf : ingest_directory_loop st (g :: rest) =
            (g.path :: (ingest_directory_loop (ingest_document st g).2 rest).1,
             (ingest_directory_loop (ingest_document st g).2 rest).2.1,
             (ingest_directory_loop (ingest_document st g).2 rest).2.2) := by
          simp only [ingest_directory_loop, hg, if_true, hr]
        refine ⟨?_, ?_, ?_⟩
        · rw [hunf, List.filter_cons_of_pos (by simpa using hg)]
          simp only [List.length_cons]
          omega
        · intro f hf hsup
          rcases List.mem_cons.mp hf with hf | hf
          · subst hf
            rw [hunf]
            exact Or.inl (List.mem_cons_self _ _)
          · rw [hunf]
            rcases ih2 f hf hsup with hm | hm
            · exact Or.inl (List.mem_cons_of_mem _ hm)
            · exact Or.inr hm
        · intro f hf hx he
          rcases List.mem_cons.mp hf with hf | hf
          · subst hf
            rw [ingest_document_raises st f hx he] at hr
            simp at hr
          · rw [hunf]
            exact ih3 f hf hx he
      · have hunf : ingest_directory_loop st (g :: rest) =
            ((ingest_directory_loop (ingest_document st g).2 rest).1,
             g.path :: (ingest_directory_loop (ingest_document st g).2 rest).2.1,
             (ingest_directory_loop (ingest_document st g).2 rest).2.2) := by
          simp only [ingest_directory_loop, hg, if_true, hr, if_false,
            Bool.false_eq_true]
        refine ⟨?_, ?_, ?_⟩
        · rw [hunf, List.filter_cons_of_pos (by simpa using hg)]
          simp only [List.length_cons]
          omega
        · intro f hf hsup
          rcases List.mem_cons.mp hf with hf | hf
          · subst hf
            rw [hunf]
            exact Or.inr (List.mem_cons_self _ _)
          · rw [hunf]
            rcases ih2 f hf hsup with hm | hm
            · exact Or.inl hm
            · exact Or.inr (List.mem_cons_of_mem _ hm)
        · intro f hf hx he
          rcases List.mem_cons.mp hf with hf | hf
          · subst hf
            rw [hunf]
            exact List.mem_cons_self _ _
          · rw [hunf]
            exact List.mem_cons_of_mem _ (ih3 f hf hx he)
    · obtain ⟨ih1, ih2, ih3⟩ := ih st
      have hunf : ingest_directory_loop st (g :: rest) = ingest_directory_loop st rest := by
        simp only [ingest_directory_loop, hg, if_false, Bool.false_eq_true]
      refine ⟨?_, ?_, ?_⟩
      · rw [hunf, List.filter_cons_of_neg (by simpa using hg)]
        exact ih1
      · intro f hf hsup
        rcases List.mem_cons.mp hf with hf | hf
        · subst hf
          exact absurd hsup hg
        · rw [hunf]
          exact ih2 f hf hsup
      · intro f hf hx he
        rcases List.mem_cons.mp hf with hf | hf
        · subst hf
          have : (supported_extensions.contains f.ext) = true := by
            rcases he with he | he | he <;> rw [he] <;> decide
          exact absurd this hg
        · rw [hunf]
          exact ih3 f hf hx he

set_option maxRecDepth 8000

/-! ## Claim C1 -/

/-- C1: the claim states that after re-ingesting a modified file every
chunk id derived from a prior revision that is not among the new
revision's chunk ids has been deleted, in particular when the new
revision produces fewer chunks.  Counterexample: a file whose first
revision chunks into 2 windows and whose second revision chunks into 1
window; after the second ingestion completes, the prior revision's chunk
under id "notes_txt_1" (outside the new revision's single-id set) is
still stored, stale, in the vector index. -/
theorem C1_counterexample :
    vlookup c1_st2.index (chunk_id "notes.txt" 1) =
      some ⟨String.mk (List.replicate 229 'a'), 1, 2, "notes.txt", "p/notes.txt"⟩ ∧
    (file_chunks c1_f2).length = 1 ∧
    (ingest_document ingest_st0 c1_f1).1 = true ∧
    (ingest_document c1_st1 c1_f2).1 = true := by
  refine ⟨by decide, by decide, by decide, by decide⟩

/-- C1 (amended): re-ingesting a modified file replaces chunks
index-by-index only.  After a successful re-ingestion, every chunk id
with index below the new revision's chunk count holds exactly the new
revision's chunk, while every chunk id with index at or beyond the new
count is untouched; consequently, when the earlier revision produced
more chunks, its surplus chunks (indices at or beyond the new count)
remain in the vector index, stale.  The index therefore holds exactly
the new chunk set only when the new revision has at least as many chunks
as the prior one. -/
theorem C1_amended (st st1 st2 : IngestState) (f1 f2 : FileSpec)
    (hname : f2.file_name = f1.file_name)
    (h1 : ingest_document st f1 = (true, st1))
    (h2 : ingest_document st1 f2 = (true, st2)) :
    (∀ j, vlookup st2.index (chunk_id f1.file_name j) =
      if j < (file_chunks f2).length
      then some ⟨(file_chunks f2).getD j "", j, (file_chunks f2).length, f1.file_name, f2.path⟩
      else vlookup st1.index (chunk_id f1.file_name j)) ∧
    (∀ j, (file_chunks f2).length ≤ j → j < (file_chunks f1).length →
      vlookup st2.index (chunk_id f1.file_name j) =
        some ⟨(file_chunks f1).getD j "", j, (file_chunks f1).length, f1.file_name, f1.path⟩) := by
  have hA := ingest_document_true_index st f1 st1 h1
  have hB := ingest_document_true_index st1 f2 st2 h2
  rw [hname] at hB
  refine ⟨hB, ?_⟩
  intro j hj2 hj1
  have hb := hB j
  rw [if_neg (by omega)] at hb
  have ha := hA j
  rw [if_pos hj1] at ha
  rw [hb, ha]

/-- C1 witness: the amended theorem applied to the concrete two-revision
scenario; the stale index-1 chunk of the first revision is still
returned by the index after the second ingestion. -/
theorem C1_witness :
    vlookup c1_st2.index (chunk_id "notes.txt" 1) =
      some ⟨(file_chunks c1_f1).getD 1 "", 1, (file_chunks c1_f1).length,
        "notes.txt", "p/notes.txt"⟩ := by
  have h1 : ingest_document ingest_st0 c1_f1 = (true, c1_st1) := by
    have hfst : (ingest_document ingest_st0 c1_f1).1 = true := by decide
    exact Prod.ext hfst rfl
  have h2 : ingest_document c1_st1 c1_f2 = (true, c1_st2) := by
    have hfst : (ingest_document c1_st1 c1_f2).1 = true := by decide
    exact Prod.ext hfst rfl
  have h := (C1_amended ingest_st0 c1_st1 c1_st2 c1_f1 c1_f2 rfl h1 h2).2 1
    (by decide) (by decide)
  exact h

/-! ## Claim C2 -/

/-- C2: the claim states that a file whose extraction throws (or that
fails with no content, no chunks, or an index-write failure) is recorded
in the run result's error list and error count.  Counterexample: in a
batch of 5 files whose third throws during extraction, the failed file
is recorded in the skipped list, the error list is empty and the error
count is 0 (the claim demands 1 error); files 4 and 5 were still
processed. -/
theorem C2_counterexample :
    (ingest_directory ingest_st0 c2_files).1.error_files = [] ∧
    (ingest_directory ingest_st0 c2_files).1.total_errors = 0 ∧
    (ingest_directory ingest_st0 c2_files).1.skipped_files = ["p3.xlsx"] ∧
    (ingest_directory ingest_st0 c2_files).1.processed_files =
      ["p1.txt", "p2.txt", "p4.txt", "p5.txt"] := by
  refine ⟨rfl, rfl, by decide, by decide⟩

/-- C2 (amended): `ingest_document` catches every failure of its own
body (extraction exception, no content, no chunks, index-write failure)
and reports plain failure, so `ingest_directory` records such files in
the skipped list - conflated with unchanged files - and its error list
and error count always stay empty; every supported file of the batch is
accounted processed-or-skipped (the run never aborts on a single file's
failure), and in particular a spreadsheet or text file whose extraction
throws is recorded as skipped, never as an error. -/
theorem C2_amended (st : IngestState) (files : List FileSpec) :
    (ingest_directory st files).1.error_files = [] ∧
    (ingest_directory st files).1.total_errors = 0 ∧
    (ingest_directory st files).1.total_processed
      = (ingest_directory st files).1.processed_files.length ∧
    (ingest_directory st files).1.total_skipped
      = (ingest_directory st files).1.skipped_files.length ∧
    ((ingest_directory st files).1.processed_files.length
        + (ingest_directory st files).1.skipped_files.length
      = (files.filter (fun f => supported_extensions.contains f.ext)).length) ∧
    (∀ f ∈ files, supported_extensions.contains f.ext = true →
      f.path ∈ (ingest_directory st files).1.processed_files ∨
        f.path ∈ (ingest_directory st files).1.skipped_files) ∧
    (∀ f ∈ files, f.extraction = Extraction.raises →
      (f.ext = ".xlsx" ∨ f.ext = ".xls" ∨ f.ext = ".txt") →
      f.path ∈ (ingest_directory st files).1.skipped_files) := by
  obtain ⟨h1, h2, h3⟩ := ingest_directory_loop_spec files st
  exact ⟨rfl, rfl, rfl, rfl, h1, h2, h3⟩

/-- C2 witness: the amended theorem applied to the concrete five-file
batch; the file that throws during extraction is accounted as skipped. -/
theorem C2_witness :
    "p3.xlsx" ∈ (ingest_directory ingest_st0 c2_files).1.skipped_files := by
  have h := (C2_amended ingest_st0 c2_files).2.2.2.2.2.2
  refine h ⟨"p3.xlsx", "p3.xlsx", "proj", ".xlsx", 1, Extraction.raises, none⟩
    (by decide) rfl (Or.inl rfl)

/-! ## Claim C4 helper computations -/

theorem dropWhile_space_replicate_a (m : Nat) :
    (List.replicate m 'a').dropWhile py_is_space = List.replicate m 'a' := by
  cases m with
  | zero => rfl
  | succ k => rw [List.replicate_succ, List.dropWhile_cons_of_neg (by decide)]

theorem py_strip_replicate_a (m : Nat) :
    py_strip (String.mk (List.replicate m 'a')) = String.mk (List.replicate m 'a') := by
  show String.mk (py_strip_chars (List.replicate m 'a')) = _
  unfold py_strip_chars
  rw [dropWhile_space_replicate_a, List.reverse_replicate, dropWhile_space_replicate_a,
    List.reverse_replicate]

theorem py_strip_replicate_a_ne (m : Nat) (h : 0 < m) :
    py_strip (String.mk (List.replicate m 'a')) ≠ "" := by
  rw [py_strip_replicate_a]
  intro hc
  have hdata := congrArg String.data hc
  simp only [List.replicate_eq_nil_iff] at hdata
  omega

theorem py_slice_c4 (i : Nat) :
    py_slice c4_text i CHUNK_SIZE =
      String.mk (List.replicate (min CHUNK_SIZE (2500 - i)) 'a') := by
  show String.mk (((List.replicate 2500 'a').drop i).take CHUNK_SIZE) = _
  rw [List.drop_replicate, List.take_replicate]

theorem preprocess_c4_text :
    preprocess_text c4_text =
      [py_slice c4_text 0 CHUNK_SIZE, py_slice c4_text 800 CHUNK_SIZE,
       py_slice c4_text 1600 CHUNK_SIZE, py_slice c4_text 2400 CHUNK_SIZE] := by
  have hrange : py_range c4_text.length (CHUNK_SIZE - CHUNK_OVERLAP) = [0, 800, 1600, 2400] := by
    have hlen : c4_text.length = 2500 := by
      show (List.replicate 2500 'a').length = 2500
      simp
    rw [hlen]
    decide
  unfold preprocess_text
  rw [if_neg (show ¬ py_strip c4_text = "" from py_strip_replicate_a_ne 2500 (by norm_num))]
  rw [hrange]
  simp only [List.filterMap_cons, List.filterMap_nil]
  rw [py_slice_c4 0, py_slice_c4 800, py_slice_c4 1600, py_slice_c4 2400]
  rw [if_pos (py_strip_replicate_a_ne _ (by decide)),
    if_pos (py_strip_replicate_a_ne _ (by decide)),
    if_pos (py_strip_replicate_a_ne _ (by decide)),
    if_pos (py_strip_replicate_a_ne _ (by decide))]

/-! ## Claim C4 -/

/-- C4: the claim states that for size 1000 and overlap 200 a text of
length 2500 yields windows starting at offsets 0, 800, 1600.
Counterexample: the chunker walks `range(0, 2500, 800)` which also
visits offset 2400, so a whitespace-free text of length 2500 yields four
windows, not three. -/
theorem C4_counterexample : (preprocess_text c4_text).length = 4 := by
  rw [preprocess_c4_text]
  rfl

/-- C4 (amended): the chunker is a pure function (deterministic), every
produced window has length at most 1000 with non-empty stripped content,
and for size 1000 / overlap 200 a text of length 2500 yields the windows
starting at offsets 0, 800, 1600 and 2400. -/
theorem C4_amended (text : String) :
    preprocess_text text = preprocess_text text ∧
    (∀ c ∈ preprocess_text text, c.length ≤ CHUNK_SIZE ∧ py_strip c ≠ "") ∧
    preprocess_text c4_text =
      [py_slice c4_text 0 CHUNK_SIZE, py_slice c4_text 800 CHUNK_SIZE,
       py_slice c4_text 1600 CHUNK_SIZE, py_slice c4_text 2400 CHUNK_SIZE] := by
  refine ⟨rfl, ?_, preprocess_c4_text⟩
  intro c hc
  unfold preprocess_text at hc
  by_cases hs : py_strip text = ""
  · rw [if_pos hs] at hc
    simp at hc
  · rw [if_neg hs] at hc
    obtain ⟨i, hi, hsome⟩ := List.mem_filterMap.mp hc
    simp only at hsome
    split at hsome
    · rename_i hcond
      obtain rfl : py_slice text i CHUNK_SIZE = c := Option.some.inj hsome
      constructor
      · show ((text.data.drop i).take CHUNK_SIZE).length ≤ CHUNK_SIZE
        rw [List.length_take]
        exact Nat.min_le_left _ _
      · exact hcond
    · exact absurd hsome (by simp)

/-- C4 witness: the amended theorem applied at the 2500-character text;
its final window (offset 2400) obeys the length bound and has non-empty
stripped content. -/
theorem C4_witness :
    (py_slice c4_text 2400 CHUNK_SIZE).length ≤ CHUNK_SIZE ∧
    py_strip (py_slice c4_text 2400 CHUNK_SIZE) ≠ "" := by
  refine (C4_amended c4_text).2.1 _ ?_
  rw [preprocess_c4_text]
  simp

/-! ## Claim C3 -/

/-- C3: the claim states that `generate_comparative_analysis` with
`eligible_only = true` restricts the queried and compared projects to
those marked eligible by a prior eligibility pass.  The source accepts
the parameter and never reads it: no eligibility data even reaches the
function, every project of the system is queried and compared whatever
the flag.  This theorem evaluates the code at the failing input - three
projects, flag set - and shows the result ignores the flag and compares
all three projects. -/
theorem C3_code_bug :
    generate_comparative_analysis ["A", "B", "C"] c3_ask_proj (Except.ok "cmp") true =
      generate_comparative_analysis ["A", "B", "C"] c3_ask_proj (Except.ok "cmp") false ∧
    (generate_comparative_analysis ["A", "B", "C"] c3_ask_proj
        (Except.ok "cmp") true).projects_compared = ["A", "B", "C"] ∧
    (generate_comparative_analysis ["A", "B", "C"] c3_ask_proj
        (Except.ok "cmp") true).responses =
      [("A", "summary of A"), ("B", "summary of B"), ("C", "summary of C")] := by
  refine ⟨rfl, rfl, rfl⟩

/-! ## Claim C5 -/

/-- C5: the claim states that `chat_with_projects` with fewer than two
project names fails with a structured error value rather than a
propagated exception.  Counterexample: the source executes
`raise ValueError(...)` - the exceptional outcome, modelled by the
`Except.error` branch - for both the empty list and a single name,
rather than returning an error-shaped result value. -/
theorem C5_counterexample :
    chat_with_projects c5_ask_proj (Except.ok "cmp") "q" [] =
      Except.error "At least 2 projects are required for multi-project chat" ∧
    chat_with_projects c5_ask_proj (Except.ok "cmp") "q" ["A"] =
      Except.error "At least 2 projects are required for multi-project chat" := by
  refine ⟨rfl, rfl⟩

/-- C5 (amended): with fewer than two project names `chat_with_projects`
raises a `ValueError` that propagates to the caller; with at least two
names it returns per-project answers keyed by exactly the given names in
order, plus a comparison string that is the synthesis output on success
or an error message when the synthesis call raises. -/
theorem C5_amended (ask_proj : String → Except String ProjectAnswer)
    (llm : Except String String) (query : String) (names : List String) :
    (names.length < 2 →
      chat_with_projects ask_proj llm query names =
        Except.error "At least 2 projects are required for multi-project chat") ∧
    (2 ≤ names.length →
      ∃ out, chat_with_projects ask_proj llm query names = Except.ok out ∧
        out.responses.map Prod.fst = names ∧
        out.comparison = (match llm with
          | .ok c => c
          | .error e => "Error generating comparative analysis: " ++ e)) := by
  constructor
  · intro hlt
    unfold chat_with_projects
    rw [if_pos]
    simp only [Bool.or_eq_true, decide_eq_true_eq]
    exact Or.inr hlt
  · intro hge
    cases names with
    | nil => simp at hge
    | cons a rest =>
      unfold chat_with_projects
      rw [if_neg (by
        simp only [List.isEmpty_cons, Bool.false_or, decide_eq_true_eq]
        simp only [List.length_cons] at hge ⊢
        omega)]
      refine ⟨_, rfl, ?_, rfl⟩
      have hcomp : (Prod.fst ∘ fun p : String =>
          (p, match ask_proj p with
              | Except.ok r => r
              | Except.error e =>
                { answer := "Error getting response: " ++ e, sources := [] })) =
            fun p : String => p := rfl
      rw [List.map_map, hcomp]
      exact List.map_id _

/-- C5 witness: the amended theorem applied at the two-project input;
the success value is keyed by exactly the two given names. -/
theorem C5_witness :
    (chat_with_projects c5_ask_proj (Except.ok "cmp") "q" ["A", "B"]).map
      (fun out => out.responses.map Prod.fst) = Except.ok ["A", "B"] := by
  obtain ⟨out, heq, hmap, hcmp⟩ :=
    (C5_amended c5_ask_proj (Except.ok "cmp") "q" ["A", "B"]).2 (by norm_num)
  rw [heq]
  show Except.ok (out.responses.map Prod.fst) = Except.ok ["A", "B"]
  rw [hmap]

/-! ## Claim C6 -/

theorem check_eligibility_loop_spec (env : Env) :
    ∀ (criteria : List (String × String)) (st : RAGState),
      ((check_eligibility_loop env st criteria).1.map (fun c => c.name)
        = criteria.map Prod.fst) ∧
      ((check_eligibility_loop env st criteria).2.1
        = (check_eligibility_loop env st criteria).1.all (fun c => c.meets_criterion)) ∧
      (∀ c ∈ (check_eligibility_loop env st criteria).1,
        c.meets_criterion = starts_with_yes c.answer) := by
  intro criteria
  induction criteria with
  | nil =>
    intro st
    refine ⟨rfl, rfl, ?_⟩
    intro c hc
    simp [check_eligibility_loop] at hc
  | cons p rest ih =>
    intro st
    obtain ⟨name, question⟩ := p
    obtain ⟨ih1, ih2, ih3⟩ := ih (ask env st (eligibility_question question)).2
    refine ⟨?_, ?_, ?_⟩
    · simp only [check_eligibility_loop, List.map_cons]
      rw [ih1]
    · simp only [check_eligibility_loop, List.all_cons]
      rw [ih2]
    · intro c hc
      simp only [check_eligibility_loop, List.mem_cons] at hc
      rcases hc with hc | hc
      · subst hc
        rfl
      · exact ih3 c hc

/-- C6: the claim states a criterion is classified as met iff the
trimmed answer's first token case-insensitively equals "yes".
Counterexample: for an answer opening with the word "Yesterday" - whose
first token is not "yes" - the source's `answer.lower().startswith("yes")`
prefix test classifies the criterion as met and the project eligible. -/
theorem C6_counterexample :
    ((check_eligibility c6_bad_env rag_st0 "demo"
        [("c1", "is it any good?")]).1.criteria.map (fun c => c.meets_criterion) = [true]) ∧
    (check_eligibility c6_bad_env rag_st0 "demo" [("c1", "is it any good?")]).1.eligible
      = true ∧
    spec_first_token_is_yes "Yesterday the project launched." = false ∧
    spec_first_token "Yesterday the project launched." = "Yesterday" := by
  refine ⟨by decide, by decide, by decide, by decide⟩

/-- C6 (amended): `check_eligibility` evaluates every criterion in the
mapping's insertion order with no short-circuit on first failure,
classifies a criterion as met iff the trimmed answer case-insensitively
starts with the letters "yes" (a prefix test, not a first-token test, so
an answer opening with e.g. "Yesterday" also counts as met), sets the
overall eligible flag to the logical AND across all criteria, and when
not eligible produces a summary naming exactly the failing criteria in
evaluation order. -/
theorem C6_amended (env : Env) (st : RAGState) (project_name : String)
    (criteria : List (String × String)) :
    ((check_eligibility env st project_name criteria).1.criteria.map (fun c => c.name)
      = criteria.map Prod.fst) ∧
    ((check_eligibility env st project_name criteria).1.eligible
      = (check_eligibility env st project_name criteria).1.criteria.all
          (fun c => c.meets_criterion)) ∧
    (∀ c ∈ (check_eligibility env st project_name criteria).1.criteria,
      c.meets_criterion = starts_with_yes c.answer) ∧
    ((check_eligibility env st project_name criteria).1.eligible = false →
      (check_eligibility env st project_name criteria).1.summary =
        "Project '" ++ project_name ++ "' does not meet the following criteria: " ++
          String.intercalate ", "
            (((check_eligibility env st project_name criteria).1.criteria.filter
                (fun c => !c.meets_criterion)).map (fun c => c.name)) ++ ".") := by
  obtain ⟨h1, h2, h3⟩ := check_eligibility_loop_spec env criteria st
  refine ⟨h1, h2, h3, ?_⟩
  intro hfalse
  have hflag : (check_eligibility_loop env st criteria).2.1 = false := hfalse
  unfold check_eligibility
  simp only [hflag, Bool.false_eq_true, if_false]

/-- C6 witness: the amended theorem applied to the three-criterion
scenario in which exactly the rural-areas criterion receives a "No, ..."
answer; the summary names exactly that one criterion. -/
theorem C6_witness :
    (check_eligibility c6_env rag_st0 "demo" c6_criteria).1.summary =
      "Project 'demo' does not meet the following criteria: rural." := by
  have h := (C6_amended c6_env rag_st0 "demo" c6_criteria).2.2.2 (by decide)
  rw [h]
  decide

/-! ## Claim C7 -/

/-- C7: the claim states the funding_decision field is always drawn from
the closed set Fund / Do Not Fund / Partially Fund / Pending.
Counterexample: a response whose first line is "DECISION: Maybe" yields
funding_decision "Maybe", outside the closed set (the parsed value is
never validated). -/
theorem C7_counterexample :
    (generate_recommendation "p" (Except.ok "DECISION: Maybe\nBody text")).funding_decision
      = some "Maybe" ∧
    "Maybe" ∉ ["Fund", "Do Not Fund", "Partially Fund", "Pending"] := by
  refine ⟨by decide, by decide⟩

theorem parse_decision_no_prefix (text : String)
    (h : py_startswith (py_strip ((py_split text '\n').headD "")) "DECISION:" = false) :
    parse_decision text = ("Pending", text) := by
  unfold parse_decision
  simp only [h, Bool.false_eq_true, if_false]

/-- C7 (amended): when the response's first line does not start with the
"DECISION:" prefix, funding_decision is "Pending" and the entire response
text is kept as the rationale; any funding_decision other than "Pending"
can only arise from a first line carrying the prefix, whose
prefix-stripped remainder is stored unvalidated (so it may fall outside
the closed set); a response beginning "DECISION: Partially Fund" parses
to the decision "Partially Fund" with the decision line removed from the
rationale. -/
theorem C7_amended (project_name text : String) :
    (py_startswith (py_strip ((py_split text '\n').headD "")) "DECISION:" = false →
      (generate_recommendation project_name (Except.ok text)).funding_decision
          = some "Pending" ∧
        (generate_recommendation project_name (Except.ok text)).recommendation = text) ∧
    ((generate_recommendation project_name (Except.ok text)).funding_decision
        = some "Pending" ∨
      py_startswith (py_strip ((py_split text '\n').headD "")) "DECISION:" = true) ∧
    (generate_recommendation project_name
        (Except.ok "DECISION: Partially Fund\nRest of text...")).funding_decision
      = some "Partially Fund" ∧
    (generate_recommendation project_name
        (Except.ok "DECISION: Partially Fund\nRest of text...")).recommendation
      = "Rest of text..." := by
  refine ⟨?_, ?_, ?_, ?_⟩
  · intro hno
    have hp := parse_decision_no_prefix text hno
    constructor
    · show some (parse_decision text).1 = some "Pending"
      rw [hp]
    · show (parse_decision text).2 = text
      rw [hp]
  · by_cases hd : py_startswith (py_strip ((py_split text '\n').headD "")) "DECISION:" = true
    · exact Or.inr hd
    · refine Or.inl ?_
      have hp := parse_decision_no_prefix text (by simpa using hd)
      show some (parse_decision text).1 = some "Pending"
      rw [hp]
  · show some (parse_decision "DECISION: Partially Fund\nRest of text...").1
      = some "Partially Fund"
    decide
  · show (parse_decision "DECISION: Partially Fund\nRest of text...").2
      = "Rest of text..."
    decide

/-- C7 witness: the amended theorem applied at a response with no
DECISION: prefix; the decision defaults to "Pending" and the whole text
is kept as the rationale. -/
theorem C7_witness :
    (generate_recommendation "proj" (Except.ok "Hello\nWorld")).funding_decision
        = some "Pending" ∧
    (generate_recommendation "proj" (Except.ok "Hello\nWorld")).recommendation
        = "Hello\nWorld" :=
  (C7_amended "proj" "Hello\nWorld").1 (by decide)

/-! ## Helper lemmas: the query/response pipeline -/

theorem query_collection_search_preserves (env : Env) (st : RAGState) (q : String) (n : Nat) :
    (query_collection_search env st q n).2.response_cache = st.response_cache ∧
    (query_collection_search env st q n).2.llm_calls = st.llm_calls ∧
    (query_collection_search env st q n).2.clock = st.clock := by
  unfold query_collection_search
  rcases hs : env.search q n with e | docs
  · simp [hs]
  · by_cases hnil : docs = []
    · simp [hs, hnil]
    · simp [hs, hnil]

theorem query_collection_preserves (env : Env) (st : RAGState) (q : String) (n : Nat) :
    (query_collection env st q n).2.response_cache = st.response_cache ∧
    (query_collection env st q n).2.llm_calls = st.llm_calls ∧
    (query_collection env st q n).2.clock = st.clock := by
  unfold query_collection
  rcases hd : dict_get st.cache (md5_hex q) with _ | v
  · simp only [hd]
    exact query_collection_search_preserves env st q n
  · simp only [hd]
    by_cases hv : v ≠ []
    · rw [if_pos hv]
      exact ⟨rfl, rfl, rfl⟩
    · rw [if_neg hv]
      exact query_collection_search_preserves env st q n

theorem query_collection_hit (env : Env) (st : RAGState) (q : String) (n : Nat)
    (docs : List RetrievedChunk)
    (h : dict_get st.cache (md5_hex q) = some docs) (hne : docs ≠ []) :
    query_collection env st q n = (docs, st) := by
  unfold query_collection
  simp only [h]
  rw [if_pos hne]

theorem generate_response_hit (env : Env) (st : RAGState) (q : String)
    (ck : List RetrievedChunk) (r : AskResult)
    (h : dict_get st.response_cache (md5_hex q) = some r) :
    generate_response env st q ck = (r, st) := by
  unfold generate_response
  simp only [h]

theorem generate_response_cache_preserved (env : Env) (st : RAGState) (q : String)
    (ck : List RetrievedChunk) :
    (generate_response env st q ck).2.cache = st.cache ∧
    (generate_response env st q ck).2.search_calls = st.search_calls := by
  unfold generate_response
  rcases hd : dict_get st.response_cache (md5_hex q) with _ | r
  · simp only [hd]
    rcases hllm : env.llm rag_system_prompt
        (rag_user_prompt q
          (if (format_context ck).1 = ""
           then "No relevant information found in the project documents."
           else (format_context ck).1)) with e | a
    · simp [hllm]
    · simp [hllm]
  · simp [hd]

theorem generate_response_miss_llm_calls (env : Env) (st : RAGState) (q : String)
    (ck : List RetrievedChunk)
    (h : dict_get st.response_cache (md5_hex q) = none) :
    (generate_response env st q ck).2.llm_calls = st.llm_calls + 1 := by
  unfold generate_response
  simp only [h]
  rcases hllm : env.llm rag_system_prompt
      (rag_user_prompt q
        (if (format_context ck).1 = ""
         then "No relevant information found in the project documents."
         else (format_context ck).1)) with e | a
  · simp [hllm]
  · simp [hllm]

theorem ask_miss_llm_calls (env : Env) (st : RAGState) (q : String)
    (h : dict_get st.response_cache (md5_hex q) = none) :
    (ask env st q).2.llm_calls = st.llm_calls + 1 := by
  simp only [ask]
  rw [generate_response_miss_llm_calls env (query_collection env st q 5).2 q
    (query_collection env st q 5).1
    (by rw [(query_collection_preserves env st q 5).1]; exact h)]
  rw [(query_collection_preserves env st q 5).2.1]

theorem ask_cache_entry (env : Env) (st : RAGState) (q : String)
    (hdocs : ∃ docs, env.search q 5 = Except.ok docs ∧ docs ≠ []) :
    ∃ v, dict_get (ask env st q).2.cache (md5_hex q) = some v ∧ v ≠ [] := by
  obtain ⟨docs, hs, hne⟩ := hdocs
  simp only [ask]
  rw [(generate_response_cache_preserved env (query_collection env st q 5).2 q
    (query_collection env st q 5).1).1]
  have hsearch : ∃ v, dict_get (query_collection_search env st q 5).2.cache (md5_hex q)
      = some v ∧ v ≠ [] := by
    refine ⟨docs, ?_, hne⟩
    unfold query_collection_search
    simp only [hs]
    rw [if_neg hne]
    exact dict_get_set_self _ _ _
  unfold query_collection
  rcases hd : dict_get st.cache (md5_hex q) with _ | v
  · simp only [hd]
    exact hsearch
  · simp only [hd]
    by_cases hv : v ≠ []
    · rw [if_pos hv]
      exact ⟨v, hd, hv⟩
    · rw [if_neg hv]
      exact hsearch

theorem ask_response_entry (env : Env) (st : RAGState) (q : String)
    (hllm : ∀ s u, ∃ a, env.llm s u = Except.ok a) :
    dict_get (ask env st q).2.response_cache (md5_hex q) = some (ask env st q).1 := by
  simp only [ask]
  generalize (query_collection env st q 5).2 = st1
  generalize (query_collection env st q 5).1 = ck
  unfold generate_response
  rcases hd : dict_get st1.response_cache (md5_hex q) with _ | r
  · simp only [hd]
    obtain ⟨a, ha⟩ := hllm rag_system_prompt
      (rag_user_prompt q
        (if (format_context ck).1 = ""
         then "No relevant information found in the project documents."
         else (format_context ck).1))
    simp only [ha]
    exact dict_get_set_self _ _ _
  · simp [hd]

theorem ask_fully_cached (env : Env) (st : RAGState) (q : String)
    (v : List RetrievedChunk) (r : AskResult)
    (hv : dict_get st.cache (md5_hex q) = some v) (hvne : v ≠ [])
    (hr : dict_get st.response_cache (md5_hex q) = some r) :
    ask env st q = (r, st) := by
  simp only [ask]
  rw [query_collection_hit env st q 5 v hv hvne]
  exact generate_response_hit env st q v r hr

theorem query_collection_miss_search_calls (env : Env) (st : RAGState) (q : String) (n : Nat)
    (h : dict_get st.cache (md5_hex q) = none) :
    (query_collection env st q n).2.search_calls = st.search_calls + 1 := by
  unfold query_collection
  simp only [h]
  unfold query_collection_search
  rcases hs : env.search q n with e | docs
  · simp [hs]
  · by_cases hnil : docs = []
    · simp [hs, hnil]
    · simp [hs, hnil]

/-! ## Claim C8 -/

/-- C8: for every query, if the language-model call raises, ask returns a
well-formed result whose answer explains the error and whose sources list
is empty, never propagates the exception past its boundary (ask is a
total function of the oracle outcome in this embedding - the raised
exception is the oracle's error value, consumed here), and writes no
Response Cache entry on that failure, so a later call for the same query
re-attempts the language-model call (the second call's language-model
invocation counter increments again). -/
theorem C8_llm_failure_contained (env : Env) (st : RAGState) (q e : String)
    (hmiss : dict_get st.response_cache (md5_hex q) = none)
    (hllm : ∀ s u, env.llm s u = Except.error e) :
    (ask env st q).1.answer = "Error generating response: " ++ e ∧
    (ask env st q).1.sources = [] ∧
    (ask env st q).1.error = some e ∧
    (ask env st q).2.response_cache = st.response_cache ∧
    (ask env (ask env st q).2 q).2.llm_calls = (ask env st q).2.llm_calls + 1 := by
  have hm1 : dict_get (query_collection env st q 5).2.response_cache (md5_hex q) = none := by
    rw [(query_collection_preserves env st q 5).1]
    exact hmiss
  have hmain : (ask env st q).1.answer = "Error generating response: " ++ e ∧
      (ask env st q).1.sources = [] ∧
      (ask env st q).1.error = some e ∧
      (ask env st q).2.response_cache = st.response_cache := by
    refine ⟨?_, ?_, ?_, ?_⟩
    · simp only [ask]
      unfold generate_response
      simp [hm1, hllm]
    · simp only [ask]
      unfold generate_response
      simp [hm1, hllm]
    · simp only [ask]
      unfold generate_response
      simp [hm1, hllm]
    · simp only [ask]
      unfold generate_response
      simp only [hm1, hllm]
      exact (query_collection_preserves env st q 5).1
  refine ⟨hmain.1, hmain.2.1, hmain.2.2.1, hmain.2.2.2, ?_⟩
  exact ask_miss_llm_calls env (ask env st q).2 q (by rw [hmain.2.2.2]; exact hmiss)

/-- C8 witness: the theorem applied to an environment whose language
model always raises "boom"; the error is converted to a result value and
the response cache stays empty. -/
theorem C8_witness :
    (ask c8_env rag_st0 "q").1.answer = "Error generating response: boom" ∧
    (ask c8_env rag_st0 "q").1.sources = [] ∧
    (ask c8_env rag_st0 "q").2.response_cache = rag_st0.response_cache := by
  have h := C8_llm_failure_contained c8_env rag_st0 "q" "boom" rfl (fun s u => rfl)
  exact ⟨h.1, h.2.1, h.2.2.2.1⟩

/-! ## Claim C9 -/

/-- C9: the claim states that for every query, the second of two
consecutive ask calls performs zero embedding computations and zero
Vector Index searches.  Counterexample: for a query whose retrieval is
empty, `query_collection` does not populate the Query Cache, so the
second call issues the similarity search (which embeds the query) again:
the search counter rises from 1 to 2. -/
theorem C9_counterexample :
    (ask c9_empty_env rag_st0 "q").2.search_calls = 1 ∧
    (ask c9_empty_env (ask c9_empty_env rag_st0 "q").2 "q").2.search_calls = 2 := by
  refine ⟨rfl, rfl⟩

/-- C9 (amended): whenever the first call's retrieval returns at least
one chunk and the language-model calls succeed, two consecutive
ask(query) calls with no intervening ingestion return identical results
and the second call leaves the state untouched - in particular it
performs zero similarity searches (hence zero embedding computations)
and zero language-model calls, being served entirely from the Query
Cache and Response Cache. -/
theorem C9_cache_correct_on_success (env : Env) (st : RAGState) (q : String)
    (hdocs : ∃ docs, env.search q 5 = Except.ok docs ∧ docs ≠ [])
    (hllm : ∀ s u, ∃ a, env.llm s u = Except.ok a) :
    ask env (ask env st q).2 q = ((ask env st q).1, (ask env st q).2) := by
  obtain ⟨v, hv, hvne⟩ := ask_cache_entry env st q hdocs
  exact ask_fully_cached env (ask env st q).2 q v (ask env st q).1 hv hvne
    (ask_response_entry env st q hllm)

/-- C9 witness: the amended theorem applied to an environment with one
retrievable chunk and a succeeding language model; the second call
returns the first call's result and state unchanged. -/
theorem C9_witness :
    ask c9_ok_env (ask c9_ok_env rag_st0 "q").2 "q"
      = ((ask c9_ok_env rag_st0 "q").1, (ask c9_ok_env rag_st0 "q").2) :=
  C9_cache_correct_on_success c9_ok_env rag_st0 "q"
    ⟨[⟨"some chunk", "proj/doc.txt", 0, 1⟩], rfl, by decide⟩
    (fun s u => ⟨"an answer", rfl⟩)

/-! ## Claim C10 -/

theorem query_collection_search_inv (env : Env) (st : RAGState) (q : String) (n : Nat)
    (hinv : ∀ p ∈ st.cache, p.2 ≠ []) :
    ∀ p ∈ (query_collection_search env st q n).2.cache, p.2 ≠ [] := by
  unfold query_collection_search
  rcases hs : env.search q n with err | docs
  · simpa using hinv
  · by_cases hnil : docs = []
    · simp only [hs, if_pos hnil]
      simpa using hinv
    · simp only [hs]
      rw [if_neg hnil]
      intro p hp
      rcases mem_dict_set hp with hmem | hpe
      · exact hinv p hmem
      · rw [hpe]
        exact hnil

/-- C10: `query_collection` writes a Query Cache entry only when
retrieval produced at least one chunk: a search that returns no
documents, and a search that raises, both return the empty list without
populating the cache - so every Query Cache entry is a non-empty chunk
list (the invariant is preserved by every call), and a query whose
retrieval was empty re-issues the Vector Index search on the next call
(the search counter increments again). -/
theorem C10_empty_retrieval_uncached (env : Env) (st : RAGState) (q : String)
    (hinv : ∀ p ∈ st.cache, p.2 ≠ []) :
    (∀ p ∈ (query_collection env st q 5).2.cache, p.2 ≠ []) ∧
    (dict_get st.cache (md5_hex q) = none →
      (env.search q 5 = Except.ok [] ∨ ∃ err, env.search q 5 = Except.error err) →
      (query_collection env st q 5).1 = [] ∧
      (query_collection env st q 5).2.cache = st.cache ∧
      (query_collection env (query_collection env st q 5).2 q 5).2.search_calls
        = (query_collection env st q 5).2.search_calls + 1) := by
  constructor
  · unfold query_collection
    rcases hd : dict_get st.cache (md5_hex q) with _ | v
    · simp only [hd]
      exact query_collection_search_inv env st q 5 hinv
    · simp only [hd]
      by_cases hv : v ≠ []
      · rw [if_pos hv]
        exact hinv
      · rw [if_neg hv]
        exact query_collection_search_inv env st q 5 hinv
  · intro hmiss hempty
    have hqc : query_collection env st q 5 =
        ([], { st with search_calls := st.search_calls + 1 }) := by
      unfold query_collection
      simp only [hmiss]
      unfold query_collection_search
      rcases hempty with hok | ⟨err, herr⟩
      · simp [hok]
      · simp [herr]
    refine ⟨by rw [hqc], by rw [hqc], ?_⟩
    rw [hqc]
    exact query_collection_miss_search_calls env _ q 5 hmiss

/-- C10 witness: the theorem applied to an environment whose similarity
search finds no documents; retrieval returns the empty list and the
query cache is left unpopulated. -/
theorem C10_witness :
    (query_collection c9_empty_env rag_st0 "q" 5).1 = [] ∧
    (query_collection c9_empty_env rag_st0 "q" 5).2.cache = rag_st0.cache := by
  have h := (C10_empty_retrieval_uncached c9_empty_env rag_st0 "q"
    (fun p hp => absurd hp (List.not_mem_nil p))).2 rfl (Or.inl rfl)
  exact ⟨h.1, h.2.1⟩

end GrantRag
